import Mathlib

/-!
Shallow embedding of `mushroom_rl/environments/mujoco_envs/humanoids/trajectory.py`
(the `Trajectory` class: construction with resampling, sub-trajectory
segmentation, playback cursor and reset), together with theorems settling the
specification claims about it.

Conventions of the embedding:
* Python floats are modelled as rationals (`ℚ`); `round` (Python builtin and
  `np.round`, both round-half-to-even) is `py_round`, `int()` truncation is
  `py_int`.
* A multi-channel trajectory is channel-major: `List (List ℚ)`.
* Python exceptions are the `PyErr` inductive; methods that mutate `self` and
  may raise return the mutated-so-far state together with the outcome, since a
  Python exception leaves prior attribute mutations in place.
* The caller's `keys` list is a heap-allocated object (`keys += [...]` and
  `keys.remove(...)` mutate it in place); the heap is a list of string lists
  and the constructor receives the address of the caller's list.
* `scipy.interpolate.interp1d(x, traj, kind="cubic", axis=1)` is an external
  library call; it is modelled by an arbitrary per-channel evaluation function
  `spline : List ℚ → ℚ → ℚ` applied at the `np.linspace` grid, keeping faithful
  only what the claims use: the output grid (hence shape), the per-channel
  structure, and the documented errors (`ValueError` for fewer than 4 sample
  points; `np.linspace` rejects a negative sample count).
-/

namespace HumanoidTraj

/-- Python exception classes that can arise in the embedded code. `NameError`
is raised when an undefined identifier (`FOOT_KEYS`, `traj_speed_mult`) is
evaluated; `ConfigurationError` never occurs in the source but is included so
that claims mentioning it are statable. -/
inductive PyErr where
  | nameError
  | keyError
  | valueError
  | indexError
  | typeError
  | configurationError
  deriving DecidableEq, Repr

/-- One named channel of recorded data. -/
abbrev Channel := List ℚ

/-- A channel-major trajectory: `channels × time steps`. -/
abbrev Traj := List Channel

/-- Heap of Python list-of-string objects; an address is an index. -/
abbrev Heap := List (List String)

/-- Python's `round` / `np.round`: round half to even (banker's rounding). -/
def py_round (q : ℚ) : ℤ :=
  if q - (⌊q⌋ : ℚ) < 1/2 then ⌊q⌋
  else if 1/2 < q - (⌊q⌋ : ℚ) then ⌊q⌋ + 1
  else if ⌊q⌋ % 2 = 0 then ⌊q⌋ else ⌊q⌋ + 1

/-- Python's `int()` on a float: truncation toward zero. -/
def py_int (q : ℚ) : ℤ :=
  if q < 0 then -⌊-q⌋ else ⌊q⌋

/-- `np.linspace start stop num` with `endpoint=True`: `num` evenly spaced
points from `start` to `stop` inclusive. -/
def np_linspace (start stop : ℚ) (num : ℕ) : List ℚ :=
  if num = 0 then []
  else if num = 1 then [start]
  else (List.range num).map (fun (i : ℕ) => start + (stop - start) * (i : ℚ) / ((num : ℚ) - 1))

/-- Whether a list of channels forms a rectangular 2-D array (what `np.array`
requires of a list of per-key rows). -/
def rectangular (rows : Traj) : Bool :=
  rows.all (fun ch => ch.length = (rows.headD []).length)

/-- The loaded `.npz` archive: named channel arrays, plus the optional
`split_points` integer array stored under its own key. -/
structure Archive where
  entries : List (String × Channel)
  split : Option (List ℕ)

/-- Membership of a channel key in the archive (`key in files.keys()`). -/
def Archive.hasKey (a : Archive) (k : String) : Bool :=
  (a.entries.map Prod.fst).contains k

/-- Lookup of a channel array by key (`files[key]`). -/
def Archive.find (a : Archive) (k : String) : Option Channel :=
  (a.entries.find? (fun e => e.1 = k)).map Prod.snd

/-- The state of a `Trajectory` object (its instance attributes). -/
structure Trajectory where
  keys_addr : ℕ := 0
  trajectory : Traj := []
  split_points : List ℕ := []
  n_repeating_steps : ℕ := 0
  traj_dt : ℚ := 1/500
  control_dt : ℚ := 1/100
  traj_speed_multiplier : ℚ := 1
  subtraj_step_no : ℕ := 0
  x_dist : ℚ := 0
  subtraj : Traj := []
  deriving DecidableEq, Repr

/-- `self.traj_length` property: `self.subtraj.shape[1]`. -/
def Trajectory.traj_length (t : Trajectory) : ℕ :=
  (t.subtraj.headD []).length

/-- Python's `list.remove`: drop the first occurrence, or signal the
`ValueError` Python raises when the element is absent (`none` here). -/
def removeFirst (l : List String) (a : String) : Option (List String) :=
  match l with
  | [] => none
  | x :: xs => if x = a then some xs else (removeFirst xs a).map (x :: ·)

/-- The `for ik in ignore_keys: keys.remove(ik)` loop. Returns the list
contents when the loop stops (on completion or on the first `ValueError`)
together with a success flag; on failure the partial removals performed so far
remain, as they do on the Python list object. -/
def removeLoop : List String → List String → List String × Bool
  | keys, [] => (keys, true)
  | keys, ik :: rest =>
    match removeFirst keys ik with
    | none => (keys, false)
    | some keys' => removeLoop keys' rest

/-- Embedding of `Trajectory._interpolate_trajectory(traj, factor)`:
`x = np.arange(L)`, `x_new = np.linspace(0, L-1, round(L*factor))`, then
`interp1d(x, traj, kind="cubic", axis=1)(x_new)`. `traj.shape[1]` raises
`IndexError` on a channel-less array; `np.linspace` raises `ValueError` on a
negative sample count; `interp1d` with `kind="cubic"` raises `ValueError` when
there are fewer than 4 sample points. The cubic spline's pointwise values come
from the external scipy routine and are abstracted by `spline`. -/
def interpolate_trajectory (spline : Channel → ℚ → ℚ) (traj : Traj) (factor : ℚ) :
    Except PyErr Traj :=
  if traj.isEmpty then .error .indexError
  else
    let L := (traj.headD []).length
    let num := py_round ((L : ℚ) * factor)
    if num < 0 then .error .valueError
    else if L < 4 then .error .valueError
    else
      let grid := np_linspace 0 ((L : ℚ) - 1) num.toNat
      .ok (traj.map (fun ch => grid.map (fun x => spline ch x)))

/-- Lines 76-93 of the constructor: store the timesteps, then
`if self.traj_dt != control_dt or traj_speed_mult != 1.0:` resample. The name
`traj_speed_mult` is not defined anywhere in `trajectory.py` (it is neither a
parameter nor a module-level name), so whenever `traj_dt == control_dt` the
`or` fails to short-circuit and evaluating it raises `NameError`. Otherwise
the branch is entered, the trajectory is resampled by
`(1 / self.traj_speed_multiplier) * (traj_dt / control_dt)` and the split
points are rescaled by `np.round(split_points * factor).astype(np.int32)`
(values assumed inside the int32 range). -/
def init_resample (spline : Channel → ℚ → ℚ) (rows : Traj) (split : List ℕ)
    (keysAddr : ℕ) (traj_dt control_dt : ℚ) : Except PyErr Trajectory :=
  if traj_dt = control_dt then .error .nameError
  else
    let factor := (1 / (1 : ℚ)) * (traj_dt / control_dt)
    match interpolate_trajectory spline rows factor with
    | .error e => .error e
    | .ok newTraj =>
      .ok { keys_addr := keysAddr
            trajectory := newTraj
            split_points := split.map (fun (p : ℕ) => (py_round ((p : ℚ) * factor)).toNat)
            n_repeating_steps := split.length - 1
            traj_dt := traj_dt
            control_dt := control_dt
            traj_speed_multiplier := 1
            subtraj_step_no := 0
            x_dist := 0
            subtraj := newTraj }

/-- Embedding of `Trajectory.__init__`. The caller's `keys` list lives at
`keysAddr` in the heap; `keys += ["goal"]` and `keys.remove(ik)` mutate that
object in place, and all later attribute assignments leave it aliased by
`self.keys`. `keys += FOOT_KEYS` evaluates the undefined name `FOOT_KEYS`
(present only in a comment), raising `NameError`. Missing channel keys raise
`KeyError`; a ragged row list makes `np.array` raise `ValueError`; a
channel-less trajectory with no stored split points raises `IndexError` at
`self.trajectory.shape[1]`. The returned heap reflects the in-place mutations
of the caller's list even when construction fails. -/
def Trajectory.init (spline : Channel → ℚ → ℚ) (archive : Archive) (heap : Heap)
    (keysAddr : ℕ) (traj_dt control_dt : ℚ) (ignore_keys : List String) :
    Heap × Except PyErr Trajectory :=
  let keys0 := heap.getD keysAddr []
  let keys1 := if archive.hasKey "goal" then keys0 ++ ["goal"] else keys0
  if archive.hasKey "rel_feet_xpos_r" then
    (heap.set keysAddr keys1, .error .nameError)
  else
    match removeLoop keys1 ignore_keys with
    | (keys2, false) => (heap.set keysAddr keys2, .error .valueError)
    | (keys2, true) =>
      let heap2 := heap.set keysAddr keys2
      match keys2.mapM (fun k => archive.find k) with
      | none => (heap2, .error .keyError)
      | some rows =>
        if rectangular rows = false then (heap2, .error .valueError)
        else
          match archive.split with
          | some sp => (heap2, init_resample spline rows sp keysAddr traj_dt control_dt)
          | none =>
            if rows.isEmpty then (heap2, .error .indexError)
            else
              (heap2, init_resample spline rows [0, (rows.headD []).length]
                keysAddr traj_dt control_dt)

/-- Subtract a channel's value at index `c` from the whole channel
(`subtraj[i, :] -= subtraj[i, c]`). -/
def ch_offset (ch : Channel) (c : ℕ) : Channel :=
  ch.map (fun v => v - ch.getD c 0)

/-- The start cursor chosen by `reset_trajectory`: the passed `substep_no`, or
`int(np.random.rand() * (self.traj_length * 0.45))` where `r` stands for the
drawn `np.random.rand()` value. `self.traj_length` here is read before
`self.subtraj` is replaced. -/
def Trajectory.reset_start_step (t : Trajectory) (substep_no : Option ℕ) (r : ℚ) : ℕ :=
  match substep_no with
  | none => (py_int (r * ((t.traj_length : ℚ) * (45/100)))).toNat
  | some s => s

/-- Last two lines of `reset_trajectory` (193-195): extract
`qpos = subtraj[0:len_q_pos, cursor]` and
`qvel = subtraj[len_q_pos:len_q_pos+len_qvel, cursor]` from the fully offset
state and return them. -/
def Trajectory.reset_finish (t4 : Trajectory) (len_q_pos len_qvel : ℕ) :
    Trajectory × Except PyErr (Channel × Channel) :=
  (t4, .ok ((t4.subtraj.take len_q_pos).map (fun ch => ch.getD t4.subtraj_step_no 0),
            ((t4.subtraj.drop len_q_pos).take len_qvel).map
              (fun ch => ch.getD t4.subtraj_step_no 0)))

/-- Line 190 of `reset_trajectory`: `self.subtraj[1, :] -= self.subtraj[1,
cursor]`, raising `IndexError` when there is no channel 1 (the channel-0
offset already performed stays in place). -/
def Trajectory.reset_stage2 (t3 : Trajectory) (len_q_pos len_qvel : ℕ) :
    Trajectory × Except PyErr (Channel × Channel) :=
  if t3.subtraj.length ≤ 1 then (t3, .error .indexError)
  else
    Trajectory.reset_finish
      { t3 with subtraj := t3.subtraj.set 1 (ch_offset (t3.subtraj.getD 1 []) t3.subtraj_step_no) }
      len_q_pos len_qvel

/-- Line 189 of `reset_trajectory`: `self.subtraj[0, :] -= self.subtraj[0,
cursor]`, raising `IndexError` when the array has no channels or the cursor is
out of the second axis. -/
def Trajectory.reset_stage (t2 : Trajectory) (len_q_pos len_qvel : ℕ) :
    Trajectory × Except PyErr (Channel × Channel) :=
  if t2.subtraj.isEmpty ∨ t2.traj_length ≤ t2.subtraj_step_no then
    (t2, .error .indexError)
  else
    Trajectory.reset_stage2
      { t2 with subtraj := t2.subtraj.set 0 (ch_offset (t2.subtraj.headD []) t2.subtraj_step_no) }
      len_q_pos len_qvel

/-- Embedding of `Trajectory.reset_trajectory(len_q_pos, len_qvel, substep_no)`
with the `np.random.rand()` draw made explicit as `r`. Sets `x_dist = 0`,
chooses the cursor (from the pre-reset `traj_length`, lines 179-184), replaces
`subtraj` with a copy of the full trajectory (line 186), then offsets channels
0 and 1 and extracts the `qpos`/`qvel` slices through the stage functions
above. An `IndexError` leaves the mutations already performed in place. -/
def Trajectory.reset_trajectory (t : Trajectory) (len_q_pos len_qvel : ℕ)
    (substep_no : Option ℕ) (r : ℚ) : Trajectory × Except PyErr (Channel × Channel) :=
  Trajectory.reset_stage
    { t with x_dist := 0
             subtraj_step_no := t.reset_start_step substep_no r
             subtraj := t.trajectory }
    len_q_pos len_qvel

/-- Embedding of `Trajectory.get_next_sub_trajectory()`:
`self.x_dist += self.subtraj[0][-1]` (an `IndexError` if there is no channel 0
or it is empty), then `self.reset_trajectory()` — which supplies neither of the
two required positional arguments `len_q_pos` and `len_qvel` and therefore
raises `TypeError` at the call, after the `x_dist` mutation has taken place. -/
def Trajectory.get_next_sub_trajectory (t : Trajectory) : Trajectory × Option PyErr :=
  match t.subtraj with
  | [] => (t, some .indexError)
  | ch0 :: _ =>
    match ch0.getLast? with
    | none => (t, some .indexError)
    | some v => ({ t with x_dist := t.x_dist + v }, some .typeError)

/-- The tail of `get_next_sample`: extract `deepcopy(self.subtraj[:, cursor])`
(an `IndexError` when the cursor is out of the array's second axis), then
advance the cursor. -/
def Trajectory.sample_step (t : Trajectory) : Trajectory × Except PyErr Channel :=
  if t.subtraj_step_no < t.traj_length then
    ({ t with subtraj_step_no := t.subtraj_step_no + 1 },
      .ok (t.subtraj.map (fun ch => ch.getD t.subtraj_step_no 0)))
  else (t, .error .indexError)

/-- Embedding of `Trajectory.get_next_sample()`: when the cursor has reached
the working sub-trajectory's length, first call `get_next_sub_trajectory`
(whose exception propagates); then sample and advance. -/
def Trajectory.get_next_sample (t : Trajectory) : Trajectory × Except PyErr Channel :=
  if t.traj_length ≤ t.subtraj_step_no then
    match t.get_next_sub_trajectory with
    | (t', some e) => (t', .error e)
    | (t', none) => t'.sample_step
  else t.sample_step

/-- Drive `get_next_sample` `n` times, counting how many of those calls
triggered `get_next_sub_trajectory` (i.e. entered with an exhausted cursor) and
stopping at the first uncaught exception, as a Python caller's loop would. -/
def Trajectory.run_samples : ℕ → Trajectory → Trajectory × ℕ × Option PyErr
  | 0, t => (t, 0, none)
  | n + 1, t =>
    match t.get_next_sample with
    | (t', .error e) =>
      (t', (if t.traj_length ≤ t.subtraj_step_no then 1 else 0), some e)
    | (t', .ok _) =>
      ((Trajectory.run_samples n t').1,
       (if t.traj_length ≤ t.subtraj_step_no then 1 else 0)
         + (Trajectory.run_samples n t').2.1,
       (Trajectory.run_samples n t').2.2)

/-- Embedding of `Trajectory._get_traj_gait_sub_steps(i, N)`:
`start = split_points[i]`, `end = split_points[i+N]` (numpy integer indexing,
`IndexError` out of range), slice `trajectory[:, start:end]` (clamping, as in
Python), then subtract `trajectory[0][start]` (`IndexError` when there is no
channel 0 or `start` is out of range) from the first channel of the slice. -/
def Trajectory.get_traj_gait_sub_steps (t : Trajectory)
    (initial_walking_step number_of_walking_steps : ℕ) : Except PyErr Traj :=
  match t.split_points[initial_walking_step]? with
  | none => .error .indexError
  | some start =>
    match t.split_points[initial_walking_step + number_of_walking_steps]? with
    | none => .error .indexError
    | some stop =>
      let sub := t.trajectory.map (fun ch => (ch.take stop).drop start)
      match t.trajectory with
      | [] => .error .indexError
      | ch0 :: _ =>
        match ch0[start]? with
        | none => .error .indexError
        | some x0 => .ok (sub.set 0 ((sub.headD []).map (fun v => v - x0)))

/-! ### Helper lemmas about the embedding's primitives -/

theorem np_linspace_length (start stop : ℚ) (num : ℕ) :
    (np_linspace start stop num).length = num := by
  unfold np_linspace
  split
  · simp [*]
  · split
    · simp [*]
    · rw [List.length_map, List.length_range]

theorem py_round_nonneg (q : ℚ) (h : 0 ≤ q) : 0 ≤ py_round q := by
  unfold py_round
  have h0 : (0:ℤ) ≤ ⌊q⌋ := Int.floor_nonneg.2 h
  split
  · exact h0
  · split
    · omega
    · split <;> omega

theorem ch_offset_getD_self (ch : Channel) (c : ℕ) (h : c < ch.length) :
    (ch_offset ch c).getD c 0 = 0 := by
  unfold ch_offset
  rw [List.getD_eq_getElem?_getD, List.getElem?_map, List.getElem?_eq_getElem h]
  simp [List.getElem?_eq_getElem h]

theorem removeFirst_eq_erase (a : String) :
    ∀ (l l' : List String), removeFirst l a = some l' → l' = l.erase a := by
  intro l
  induction l with
  | nil => intro l' h; simp [removeFirst] at h
  | cons x xs ih =>
    intro l' h
    by_cases hx : x = a
    · simp [removeFirst, hx] at h
      simp [List.erase_cons, hx, ← h]
    · simp only [removeFirst, if_neg hx] at h
      rcases Option.map_eq_some'.1 h with ⟨m, hm, rfl⟩
      simp [List.erase_cons, hx, ih m hm]

theorem removeLoop_eq_foldl_erase :
    ∀ (ig keys keys2 : List String), removeLoop keys ig = (keys2, true) →
      keys2 = ig.foldl (fun ks ik => ks.erase ik) keys := by
  intro ig
  induction ig with
  | nil => intro keys keys2 h; simp [removeLoop] at h; simp [h]
  | cons ik rest ih =>
    intro keys keys2 h
    unfold removeLoop at h
    cases hrf : removeFirst keys ik with
    | none => rw [hrf] at h; simp at h
    | some keys' =>
      rw [hrf] at h
      simpa [removeFirst_eq_erase ik keys keys' hrf] using ih keys' keys2 h

theorem reset_stage_step_no (t2 : Trajectory) (lq lv : ℕ) :
    (Trajectory.reset_stage t2 lq lv).1.subtraj_step_no = t2.subtraj_step_no := by
  unfold Trajectory.reset_stage Trajectory.reset_stage2 Trajectory.reset_finish
  split
  · rfl
  · split
    · rfl
    · rfl

theorem reset_trajectory_step_no (t : Trajectory) (lq lv : ℕ) (s : Option ℕ) (r : ℚ) :
    (t.reset_trajectory lq lv s r).1.subtraj_step_no = t.reset_start_step s r := by
  unfold Trajectory.reset_trajectory
  rw [reset_stage_step_no]

theorem reset_stage2_eq (t3 : Trajectory) (lq lv : ℕ) (a ch1 : Channel) (rest : Traj)
    (hst : t3.subtraj = a :: ch1 :: rest) :
    Trajectory.reset_stage2 t3 lq lv =
      ({ t3 with subtraj := a :: ch_offset ch1 t3.subtraj_step_no :: rest },
       .ok (((a :: ch_offset ch1 t3.subtraj_step_no :: rest).take lq).map
              (fun ch => ch.getD t3.subtraj_step_no 0),
            (((a :: ch_offset ch1 t3.subtraj_step_no :: rest).drop lq).take lv).map
              (fun ch => ch.getD t3.subtraj_step_no 0))) := by
  unfold Trajectory.reset_stage2 Trajectory.reset_finish
  rw [hst]
  rw [if_neg (by simp)]
  rfl

theorem reset_stage_eq (t2 : Trajectory) (lq lv : ℕ) (ch0 ch1 : Channel) (rest : Traj)
    (hst : t2.subtraj = ch0 :: ch1 :: rest)
    (hc : t2.subtraj_step_no < ch0.length) :
    Trajectory.reset_stage t2 lq lv =
      ({ t2 with subtraj := ch_offset ch0 t2.subtraj_step_no ::
                            ch_offset ch1 t2.subtraj_step_no :: rest },
       .ok (((ch_offset ch0 t2.subtraj_step_no ::
              ch_offset ch1 t2.subtraj_step_no :: rest).take lq).map
              (fun ch => ch.getD t2.subtraj_step_no 0),
            (((ch_offset ch0 t2.subtraj_step_no ::
               ch_offset ch1 t2.subtraj_step_no :: rest).drop lq).take lv).map
              (fun ch => ch.getD t2.subtraj_step_no 0))) := by
  unfold Trajectory.reset_stage
  rw [hst]
  rw [if_neg (by simp [Trajectory.traj_length, hst, not_le.2 hc])]
  rw [reset_stage2_eq _ lq lv (ch_offset ch0 t2.subtraj_step_no) ch1 rest rfl]

/-- Full characterization of a successful `reset_trajectory` on a trajectory
with at least two channels and an in-range chosen cursor. -/
theorem reset_trajectory_eq (t : Trajectory) (lq lv : ℕ) (s : Option ℕ) (r : ℚ)
    (ch0 ch1 : Channel) (rest : Traj)
    (htr : t.trajectory = ch0 :: ch1 :: rest)
    (hc : t.reset_start_step s r < ch0.length) :
    t.reset_trajectory lq lv s r =
      ({ t with x_dist := 0
                subtraj_step_no := t.reset_start_step s r
                subtraj := ch_offset ch0 (t.reset_start_step s r) ::
                  ch_offset ch1 (t.reset_start_step s r) :: rest },
       .ok ((((ch_offset ch0 (t.reset_start_step s r) ::
                ch_offset ch1 (t.reset_start_step s r) :: rest).take lq).map
              (fun ch => ch.getD (t.reset_start_step s r) 0)),
            (((((ch_offset ch0 (t.reset_start_step s r) ::
                ch_offset ch1 (t.reset_start_step s r) :: rest)).drop lq).take lv).map
              (fun ch => ch.getD (t.reset_start_step s r) 0)))) := by
  unfold Trajectory.reset_trajectory
  rw [reset_stage_eq _ lq lv ch0 ch1 rest htr hc]

/-! ### C2 — resampling factor exactly 1.0 -/

/-- C2: the claim states that with `traj_dt == control_dt` (resampling factor
exactly 1.0) construction skips resampling and stores the trajectory
bit-identical to the input. The code instead evaluates the undefined name
`traj_speed_mult` (the `or` cannot short-circuit when the timesteps are equal)
and raises `NameError`: with a well-formed archive of two 4-sample channels and
`traj_dt = control_dt` (both 1 here), construction fails. -/
theorem C2_factor_one_raises_name_error :
    (Trajectory.init (fun _ _ => 0)
        ⟨[("a", [0, 1, 2, 3]), ("b", [0, 1, 2, 3])], none⟩
        [["a", "b"]] 0 1 1 []).2 = .error .nameError := rfl

/-! ### C4 — resampler failure conditions -/

/-- C4 counterexample: the claim says the resampler fails with a
`ConfigurationError` whenever the factor is ≤ 0. At factor `0` with a 4-sample
channel pair, `round(L*0) = 0`, `np.linspace` happily returns an empty grid,
cubic interpolation succeeds, and the resampler returns an empty trajectory
with no error of any kind. -/
theorem C4_counterexample :
    interpolate_trajectory (fun _ _ => 0) [[1, 2, 3, 4], [2, 3, 4, 5]] 0
      = .ok [[], []] := by
  have h : py_round (0:ℚ) = 0 := by norm_num [py_round]
  norm_num [interpolate_trajectory, h, np_linspace]

/-- C4 amended: there is no `ConfigurationError` anywhere in the code. On a
trajectory with at least one channel of length `L`: when `round(L*factor) < 0`
the resampler fails with `ValueError` (from `np.linspace`); when
`round(L*factor) ≥ 0` but `L < 4` it fails with `ValueError` (from scipy's
cubic `interp1d`); and for factor ≤ 0 with `round(L*factor) = 0` and `L ≥ 4`
it succeeds, returning one empty channel per input channel. -/
theorem C4_amended (spline : Channel → ℚ → ℚ) (traj : Traj) (factor : ℚ)
    (hne : traj ≠ []) :
    (py_round (((traj.headD []).length : ℚ) * factor) < 0 →
      interpolate_trajectory spline traj factor = .error .valueError) ∧
    (0 ≤ py_round (((traj.headD []).length : ℚ) * factor) →
      (traj.headD []).length < 4 →
      interpolate_trajectory spline traj factor = .error .valueError) ∧
    (factor ≤ 0 → py_round (((traj.headD []).length : ℚ) * factor) = 0 →
      4 ≤ (traj.headD []).length →
      interpolate_trajectory spline traj factor = .ok (traj.map (fun _ => []))) := by
  have hempty : traj.isEmpty = false := by
    simpa [List.isEmpty_iff] using hne
  refine ⟨?_, ?_, ?_⟩
  · intro hlt
    unfold interpolate_trajectory
    rw [hempty]
    simp only [Bool.false_eq_true, if_false, if_pos hlt]
  · intro hge hL
    unfold interpolate_trajectory
    rw [hempty]
    simp only [Bool.false_eq_true, if_false, if_neg (not_lt.2 hge), if_pos hL]
  · intro _ hzero hL
    unfold interpolate_trajectory
    rw [hempty]
    simp only [Bool.false_eq_true, if_false, hzero]
    rw [if_neg (by omega), if_neg (not_lt.2 hL)]
    simp [np_linspace]

/-- C4 witness: at factor `-1` on a single 4-sample channel, `round(4·(-1))`
is negative and the resampler raises `ValueError` — not `ConfigurationError`. -/
theorem C4_witness :
    interpolate_trajectory (fun _ _ => (0:ℚ)) [[1, 2, 3, 4]] (-1)
      = .error .valueError :=
  (C4_amended (fun _ _ => 0) [[1, 2, 3, 4]] (-1) (by decide)).1
    (by norm_num [py_round])

/-! ### C7 — segment extraction index errors -/

/-- C7: whenever `i + N > len(split_points) - 1` (over the integers, i.e.
`len(split_points) ≤ i + N` — also covering an empty split-point array),
sub-trajectory extraction raises an `IndexError`-class error: the numpy index
`split_points[i + N]` (or already `split_points[i]`) is out of bounds. -/
theorem C7_repeat_index_error (t : Trajectory) (i N : ℕ)
    (h : t.split_points.length ≤ i + N) :
    t.get_traj_gait_sub_steps i N = .error .indexError := by
  unfold Trajectory.get_traj_gait_sub_steps
  cases hi : t.split_points[i]? with
  | none => rfl
  | some start => rw [List.getElem?_eq_none h]

/-- C7 witness: split points `[0, 50, 120]` with repeat index 1 and count 2
(`1 + 2 > 3 - 1`) raise `IndexError`. -/
theorem C7_witness :
    ({ split_points := [0, 50, 120],
       trajectory := [[0, 1, 2]] } : Trajectory).get_traj_gait_sub_steps 1 2
      = .error .indexError :=
  C7_repeat_index_error _ 1 2 (by decide)

/-! ### C10 — FOOT_KEYS NameError -/

/-- C10: for every archive containing the key `rel_feet_xpos_r`, construction
raises `NameError` regardless of all other arguments, because `keys +=
FOOT_KEYS` evaluates `FOOT_KEYS`, which exists only inside a comment. -/
theorem C10_foot_keys_name_error (spline : Channel → ℚ → ℚ) (archive : Archive)
    (heap : Heap) (keysAddr : ℕ) (traj_dt control_dt : ℚ)
    (ignore_keys : List String)
    (h : archive.hasKey "rel_feet_xpos_r" = true) :
    (Trajectory.init spline archive heap keysAddr traj_dt control_dt ignore_keys).2
      = .error .nameError := by
  unfold Trajectory.init
  rw [h]
  simp

/-- C10 witness: a deep-mimic archive containing `rel_feet_xpos_r` fails with
`NameError` on a concrete, otherwise well-formed call. -/
theorem C10_witness :
    (Trajectory.init (fun _ _ => 0)
        ⟨[("a", [0, 1, 2, 3]), ("rel_feet_xpos_r", [0, 1, 2, 3])], none⟩
        [["a"]] 0 (1/50) (1/100) []).2 = .error .nameError :=
  C10_foot_keys_name_error _ _ _ _ _ _ _ (by decide)

/-! ### C5 — zero-offset invariant of reset -/

/-- C5: after any `reset_trajectory` that selects cursor `s` (explicitly
passed or drawn via the random value `r`), the working sub-trajectory's
channels 0 and 1 evaluated at `s` are exactly zero, and the reset succeeds.
The hypotheses ask for at least two channels of common length `L` and an
in-range chosen cursor — the setting in which the claim speaks. -/
theorem C5_reset_zero_offset (t : Trajectory) (len_q_pos len_qvel : ℕ)
    (substep_no : Option ℕ) (r : ℚ) (L : ℕ)
    (hrect : ∀ ch ∈ t.trajectory, ch.length = L)
    (h2 : 2 ≤ t.trajectory.length)
    (hc : t.reset_start_step substep_no r < L) :
    ((t.reset_trajectory len_q_pos len_qvel substep_no r).1.subtraj.headD []).getD
        ((t.reset_trajectory len_q_pos len_qvel substep_no r).1.subtraj_step_no) 0 = 0 ∧
    ((t.reset_trajectory len_q_pos len_qvel substep_no r).1.subtraj.getD 1 []).getD
        ((t.reset_trajectory len_q_pos len_qvel substep_no r).1.subtraj_step_no) 0 = 0 ∧
    ∃ qp qv, (t.reset_trajectory len_q_pos len_qvel substep_no r).2 = .ok (qp, qv) := by
  have hne0 : t.trajectory ≠ [] := by
    intro h; rw [h] at h2; exact absurd h2 (by norm_num)
  obtain ⟨ch0, rest0, htr0⟩ := List.exists_cons_of_ne_nil hne0
  have hne1 : rest0 ≠ [] := by
    intro h; rw [htr0, h] at h2; exact absurd h2 (by norm_num)
  obtain ⟨ch1, rest, htr1⟩ := List.exists_cons_of_ne_nil hne1
  rw [htr1] at htr0
  have hch0 : ch0.length = L := hrect ch0 (by rw [htr0]; exact List.mem_cons_self ch0 _)
  have hch1 : ch1.length = L := hrect ch1
    (by rw [htr0]; exact List.mem_cons_of_mem _ (List.mem_cons_self ch1 _))
  have heq := reset_trajectory_eq t len_q_pos len_qvel substep_no r ch0 ch1 rest htr0
    (by rw [hch0]; exact hc)
  rw [heq]
  refine ⟨?_, ?_, ?_⟩
  · simpa using ch_offset_getD_self ch0 _ (by rw [hch0]; exact hc)
  · simpa using ch_offset_getD_self ch1 _ (by rw [hch1]; exact hc)
  · exact ⟨_, _, rfl⟩

/-- C5 witness: a concrete reset with an explicitly passed cursor `s = 2` on a
2-channel, 3-sample trajectory leaves both position channels zero at index
2. -/
theorem C5_witness :
    ((({ trajectory := [[1, 2, 3], [10, 20, 30]] } : Trajectory).reset_trajectory
        1 1 (some 2) 0).1.subtraj.headD []).getD
      ((({ trajectory := [[1, 2, 3], [10, 20, 30]] } : Trajectory).reset_trajectory
        1 1 (some 2) 0).1.subtraj_step_no) 0 = 0 :=
  (C5_reset_zero_offset { trajectory := [[1, 2, 3], [10, 20, 30]] } 1 1 (some 2) 0 3
    (by decide) (by decide) (by decide)).1

/-! ### C8 — random cursor restriction -/

/-- C8: when `substep_no` is omitted, the chosen cursor is
`int(r * 0.45 * traj_length)` for the drawn uniform value `r`; for `0 ≤ r < 1`
it therefore lies in `[0, 0.45 * traj_length)`, and on a sub-trajectory of
length 1000 every sampled cursor is below 450. -/
theorem C8_random_cursor (t : Trajectory) (len_q_pos len_qvel : ℕ) (r : ℚ)
    (hr0 : 0 ≤ r) (hr1 : r < 1) (hL : 1 ≤ t.traj_length) :
    (t.reset_trajectory len_q_pos len_qvel none r).1.subtraj_step_no
        = (py_int (r * (45/100) * (t.traj_length : ℚ))).toNat ∧
    (((t.reset_trajectory len_q_pos len_qvel none r).1.subtraj_step_no : ℚ)
        < (45/100) * (t.traj_length : ℚ)) ∧
    (t.traj_length = 1000 →
      (t.reset_trajectory len_q_pos len_qvel none r).1.subtraj_step_no < 450) := by
  have hq : r * ((t.traj_length : ℚ) * (45/100)) = r * (45/100) * (t.traj_length : ℚ) := by
    ring
  have hq0 : 0 ≤ r * ((t.traj_length : ℚ) * (45/100)) := by positivity
  have hfl0 : (0:ℤ) ≤ ⌊r * ((t.traj_length : ℚ) * (45/100))⌋ := Int.floor_nonneg.2 hq0
  have hpy : py_int (r * ((t.traj_length : ℚ) * (45/100)))
      = ⌊r * ((t.traj_length : ℚ) * (45/100))⌋ := by
    unfold py_int
    rw [if_neg (not_lt.2 hq0)]
  have hcur : (t.reset_trajectory len_q_pos len_qvel none r).1.subtraj_step_no
      = (⌊r * ((t.traj_length : ℚ) * (45/100))⌋).toNat := by
    rw [reset_trajectory_step_no]
    unfold Trajectory.reset_start_step
    rw [hpy]
  have hbound : ((⌊r * ((t.traj_length : ℚ) * (45/100))⌋).toNat : ℚ)
      < (45/100) * (t.traj_length : ℚ) := by
    have hcast : ((⌊r * ((t.traj_length : ℚ) * (45/100))⌋).toNat : ℚ)
        = ((⌊r * ((t.traj_length : ℚ) * (45/100))⌋ : ℤ) : ℚ) := by
      exact_mod_cast Int.toNat_of_nonneg hfl0
    rw [hcast]
    calc ((⌊r * ((t.traj_length : ℚ) * (45/100))⌋ : ℤ) : ℚ)
        ≤ r * ((t.traj_length : ℚ) * (45/100)) := Int.floor_le _
      _ < 1 * ((t.traj_length : ℚ) * (45/100)) := by
          have hX : 0 < (t.traj_length : ℚ) * (45/100) := by
            have : (0:ℚ) < (t.traj_length : ℚ) := by exact_mod_cast hL
            positivity
          exact mul_lt_mul_of_pos_right hr1 hX
      _ = (45/100) * (t.traj_length : ℚ) := by ring
  refine ⟨?_, ?_, ?_⟩
  · rw [hcur, hpy.symm, hq]
  · rw [hcur]; exact hbound
  · intro h1000
    rw [hcur, h1000]
    have := hbound
    rw [h1000] at this
    norm_num at this ⊢
    exact_mod_cast this

/-- C8 witness: on a sub-trajectory of length 1000 with `r = 1/2`, the chosen
cursor is below 450. -/
theorem C8_witness :
    (({ subtraj := [List.replicate 1000 (0:ℚ)] } : Trajectory).reset_trajectory
        0 0 none (1/2)).1.subtraj_step_no < 450 :=
  (C8_random_cursor { subtraj := [List.replicate 1000 (0:ℚ)] } 0 0 (1/2)
      (by norm_num) (by norm_num)
      (by show (1:ℕ) ≤ ([List.replicate 1000 (0:ℚ)].headD []).length
          rw [List.headD_cons, List.length_replicate]
          norm_num)).2.2
    (by show ([List.replicate 1000 (0:ℚ)].headD []).length = 1000
        rw [List.headD_cons, List.length_replicate])

/-! ### C6 — segment extraction -/

/-- C6: for a trajectory with strictly monotone split points (all within the
channel length `L`) and a valid repeat index/count (`1 ≤ N`,
`i + N ≤ len(split_points) - 1`), extraction returns
`trajectory[:, split_points[i] : split_points[i+N]]` with the first channel
decreased everywhere by `trajectory[0][split_points[i]]`; every channel of the
segment has length `split_points[i+N] - split_points[i]` (so consecutive
single-repeat segments tile the trajectory), and the segment's first
position-channel value at index 0 is exactly zero. -/
theorem C6_segment_extraction (t : Trajectory) (i N L : ℕ)
    (hsorted : List.Pairwise (· < ·) t.split_points)
    (hN : 1 ≤ N) (hiN : i + N < t.split_points.length)
    (hspL : ∀ p ∈ t.split_points, p ≤ L)
    (hne : t.trajectory ≠ [])
    (hrect : ∀ ch ∈ t.trajectory, ch.length = L) :
    ∃ seg, t.get_traj_gait_sub_steps i N = .ok seg ∧
      seg = (t.trajectory.map (fun ch =>
              (ch.take (t.split_points.getD (i + N) 0)).drop (t.split_points.getD i 0))).set 0
            ((((t.trajectory.headD []).take (t.split_points.getD (i + N) 0)).drop
                (t.split_points.getD i 0)).map
              (fun v => v - (t.trajectory.headD []).getD (t.split_points.getD i 0) 0)) ∧
      (∀ ch ∈ seg, ch.length
          = t.split_points.getD (i + N) 0 - t.split_points.getD i 0) ∧
      (seg.headD []).getD 0 0 = 0 := by
  obtain ⟨ch0, rest, htr⟩ := List.exists_cons_of_ne_nil hne
  have hi : i < t.split_points.length := by omega
  have hstart : t.split_points[i]? = some t.split_points[i] := List.getElem?_eq_getElem hi
  have hstop : t.split_points[i + N]? = some t.split_points[i + N] :=
    List.getElem?_eq_getElem hiN
  have hlt : t.split_points[i] < t.split_points[i + N] :=
    List.pairwise_iff_getElem.1 hsorted i (i + N) hi hiN (by omega)
  have hstopL : t.split_points[i + N] ≤ L := hspL _ (List.getElem_mem hiN)
  have hstartL : t.split_points[i] < L := lt_of_lt_of_le hlt hstopL
  have hch0 : ch0.length = L := hrect ch0 (by rw [htr]; exact List.mem_cons_self ch0 rest)
  have hstartch0 : t.split_points[i] < ch0.length := by rw [hch0]; exact hstartL
  have hx0 : ch0[t.split_points[i]]? = some ch0[t.split_points[i]] :=
    List.getElem?_eq_getElem hstartch0
  have hgetDi : t.split_points.getD i 0 = t.split_points[i] :=
    List.getD_eq_getElem _ _ hi
  have hgetDiN : t.split_points.getD (i + N) 0 = t.split_points[i + N] :=
    List.getD_eq_getElem _ _ hiN
  have hslice : ∀ ch : Channel, ch.length = L →
      ((ch.take t.split_points[i + N]).drop t.split_points[i]).length
        = t.split_points[i + N] - t.split_points[i] := by
    intro ch hch
    rw [List.length_drop, List.length_take, hch, Nat.min_eq_left hstopL]
  have hsl0 : ((ch0.take t.split_points[i + N]).drop t.split_points[i]).getD 0 0
      = ch0[t.split_points[i]] := by
    rw [List.getD_eq_getElem?_getD, List.getElem?_drop, List.getElem?_take,
      Nat.add_zero, if_pos hlt, List.getElem?_eq_getElem hstartch0]
    rfl
  unfold Trajectory.get_traj_gait_sub_steps
  rw [hstart, hstop]
  simp only [htr, List.map_cons, List.headD_cons, hx0, List.set]
  refine ⟨_, rfl, ?_, ?_, ?_⟩
  · simp only [htr, List.map_cons, List.headD_cons, List.set, hgetDi, hgetDiN,
      List.getD_eq_getElem ch0 0 hstartch0]
  · intro ch hch
    rw [hgetDi, hgetDiN]
    rcases List.mem_cons.1 hch with hh | hh
    · rw [hh, List.length_map]
      exact hslice ch0 hch0
    · obtain ⟨ch', hch', rfl⟩ := List.mem_map.1 hh
      exact hslice ch' (hrect ch' (by rw [htr]; exact List.mem_cons_of_mem ch0 hch'))
  · rw [List.headD_cons, List.getD_eq_getElem?_getD, List.getElem?_map]
    have hlen0 : 0 < ((ch0.take t.split_points[i + N]).drop t.split_points[i]).length := by
      rw [hslice ch0 hch0]; omega
    rw [List.getElem?_eq_getElem hlen0]
    have : ((ch0.take t.split_points[i + N]).drop t.split_points[i])[0]
        = ch0[t.split_points[i]] := by
      have := hsl0
      rwa [List.getD_eq_getElem _ 0 hlen0] at this
    simp [this]

/-- C6 witness: split points `[0, 2, 5]` on a 2-channel, 5-sample trajectory,
repeat index 1, count 1: the segment spans samples `[2:5)`, has length 3 per
channel, and its position channel starts at exactly 0. -/
theorem C6_witness :
    ({ trajectory := [[0, 10, 20, 30, 40], [1, 2, 3, 4, 5]],
       split_points := [0, 2, 5] } : Trajectory).get_traj_gait_sub_steps 1 1
      = .ok [[0, 10, 20], [3, 4, 5]] := by
  obtain ⟨seg, h1, h2, -, -⟩ := C6_segment_extraction
    { trajectory := [[0, 10, 20, 30, 40], [1, 2, 3, 4, 5]], split_points := [0, 2, 5] }
    1 1 5 (by decide) (by decide) (by decide) (by decide) (by decide) (by decide)
  rw [h1, h2]
  norm_num

/-! ### C9 — in-place mutation of the caller's keys list -/

theorem init_resample_keys_addr (spline : Channel → ℚ → ℚ) (rows : Traj)
    (split : List ℕ) (keysAddr : ℕ) (traj_dt control_dt : ℚ) (st : Trajectory)
    (h : init_resample spline rows split keysAddr traj_dt control_dt = .ok st) :
    st.keys_addr = keysAddr := by
  simp only [init_resample] at h
  split at h
  · exact absurd h (by simp)
  · split at h
    · exact absurd h (by simp)
    · simp only [Except.ok.injEq] at h
      rw [← h]

/-- C9: the constructor mutates the caller's `keys` list object in place —
after the call the caller's heap cell holds the original list with `"goal"`
appended (when the archive has a `goal` array) and the first occurrence of
each `ignore_keys` entry removed, in order — and any successfully constructed
object stores the caller's own address as `self.keys`. Hypotheses: the archive
has no `rel_feet_xpos_r` key (that path raises `NameError` first) and every
ignore key is present, so the removal loop succeeds. -/
theorem C9_keys_in_place_mutation (spline : Channel → ℚ → ℚ) (archive : Archive)
    (heap : Heap) (keysAddr : ℕ) (traj_dt control_dt : ℚ)
    (ignore_keys : List String) (keys2 : List String)
    (hfoot : archive.hasKey "rel_feet_xpos_r" = false)
    (hrem : removeLoop (if archive.hasKey "goal" then heap.getD keysAddr [] ++ ["goal"]
                        else heap.getD keysAddr []) ignore_keys = (keys2, true)) :
    (Trajectory.init spline archive heap keysAddr traj_dt control_dt ignore_keys).1
        = heap.set keysAddr keys2 ∧
    keys2 = ignore_keys.foldl (fun ks ik => ks.erase ik)
        (if archive.hasKey "goal" then heap.getD keysAddr [] ++ ["goal"]
         else heap.getD keysAddr []) ∧
    ∀ st, (Trajectory.init spline archive heap keysAddr traj_dt control_dt ignore_keys).2
        = .ok st → st.keys_addr = keysAddr := by
  have hfold := removeLoop_eq_foldl_erase ignore_keys _ keys2 hrem
  unfold Trajectory.init
  rw [hfoot]
  simp only [Bool.false_eq_true, if_false, hrem]
  refine ⟨?_, hfold, ?_⟩
  · cases hmap : List.mapM (fun k => archive.find k) keys2 with
    | none => rfl
    | some rows =>
      simp only []
      split
      · rfl
      · split
        · rfl
        · split
          · rfl
          · rfl
  · intro st h
    cases hmap : List.mapM (fun k => archive.find k) keys2 with
    | none =>
      rw [hmap] at h
      exact absurd h (by simp)
    | some rows =>
      rw [hmap] at h
      dsimp only at h
      split at h
      · exact absurd h (by simp)
      · split at h
        · exact init_resample_keys_addr _ _ _ _ _ _ _ h
        · split at h
          · exact absurd h (by simp)
          · exact init_resample_keys_addr _ _ _ _ _ _ _ h

/-- C9 witness: caller passes the list `["a", "b"]`; the archive has a `goal`
array and `ignore_keys = ["b"]`; after construction the caller's own list
object holds `["a", "goal"]`. -/
theorem C9_witness :
    (Trajectory.init (fun _ _ => 0)
        ⟨[("goal", [1, 2, 3, 4]), ("a", [0, 1, 2, 3]), ("b", [9, 9, 9, 9])], none⟩
        [["a", "b"]] 0 2 1 ["b"]).1 = [["a", "goal"]] :=
  (C9_keys_in_place_mutation (fun _ _ => 0)
      ⟨[("goal", [1, 2, 3, 4]), ("a", [0, 1, 2, 3]), ("b", [9, 9, 9, 9])], none⟩
      [["a", "b"]] 0 2 1 ["b"] ["a", "goal"] (by decide) (by decide)).1

/-! ### C1 — cursor wraparound -/

theorem traj_length_of_subtraj (t : Trajectory) (ch0 : Channel) (rest : Traj)
    (h : t.subtraj = ch0 :: rest) : t.traj_length = ch0.length := by
  unfold Trajectory.traj_length
  rw [h, List.headD_cons]

/-- One non-wrapping `get_next_sample` step: with an in-range cursor the call
succeeds, only advancing the cursor. -/
theorem get_next_sample_no_wrap (t : Trajectory) (L : ℕ)
    (hTL : t.traj_length = L) (hlt : t.subtraj_step_no < L) :
    t.get_next_sample = ({ t with subtraj_step_no := t.subtraj_step_no + 1 },
      .ok (t.subtraj.map (fun ch => ch.getD t.subtraj_step_no 0))) := by
  unfold Trajectory.get_next_sample
  rw [if_neg (by omega)]
  unfold Trajectory.sample_step
  rw [if_pos (by omega)]

/-- `k` non-wrapping samples: as long as the cursor stays within the working
sub-trajectory, `run_samples` only advances the cursor and triggers no
wraparound and no exception. -/
theorem run_samples_no_wrap (L : ℕ) :
    ∀ (k : ℕ) (t : Trajectory), t.subtraj ≠ [] → t.traj_length = L →
      t.subtraj_step_no + k ≤ L →
      Trajectory.run_samples k t
        = ({ t with subtraj_step_no := t.subtraj_step_no + k }, 0, none) := by
  intro k
  induction k with
  | zero => intro t _ _ _; rfl
  | succ n ih =>
    intro t hne hTL hk
    have hstep := get_next_sample_no_wrap t L hTL (by omega)
    have hrec := ih { t with subtraj_step_no := t.subtraj_step_no + 1 } hne hTL
      (by show t.subtraj_step_no + 1 + n ≤ L; omega)
    dsimp only at hrec
    show Trajectory.run_samples (n + 1) t = _
    unfold Trajectory.run_samples
    rw [hstep]
    dsimp only
    rw [hrec]
    dsimp only
    rw [if_neg (by omega)]
    have harith : t.subtraj_step_no + 1 + n = t.subtraj_step_no + (n + 1) := by omega
    simp only [harith, Nat.zero_add]

/-- The wrap-around run: starting `k` steps short of the end, `k + 1` calls to
`get_next_sample` perform `k` ordinary advances and then exactly one
`get_next_sub_trajectory` call, which accumulates the last value of channel 0
into `x_dist` and raises `TypeError` (the argument-less `reset_trajectory()`
call). -/
theorem run_samples_wrap (L : ℕ) (hL : 1 ≤ L) :
    ∀ (k : ℕ) (t : Trajectory) (ch0 : Channel) (rest : Traj),
      t.subtraj = ch0 :: rest → ch0.length = L → t.subtraj_step_no + k = L →
      Trajectory.run_samples (k + 1) t =
        ({ t with subtraj_step_no := L,
                  x_dist := t.x_dist + ch0.getLastD 0 }, 1, some .typeError) := by
  intro k
  induction k with
  | zero =>
    intro t ch0 rest hst hch0 hk
    have hTL : t.traj_length = L := by rw [traj_length_of_subtraj t ch0 rest hst, hch0]
    have hne : ch0 ≠ [] := by
      intro h'; rw [h'] at hch0; simp at hch0; omega
    have hlast : ch0.getLast? = some (ch0.getLastD 0) := by
      rw [List.getLast?_eq_getLast ch0 hne, List.getLastD_eq_getLast?,
        List.getLast?_eq_getLast ch0 hne]
      rfl
    have hwrap : t.get_next_sample
        = ({ t with x_dist := t.x_dist + ch0.getLastD 0 }, .error .typeError) := by
      unfold Trajectory.get_next_sample
      rw [if_pos (by omega)]
      unfold Trajectory.get_next_sub_trajectory
      rw [hst]
      dsimp only
      rw [hlast]
    show Trajectory.run_samples (0 + 1) t = _
    unfold Trajectory.run_samples
    rw [hwrap]
    dsimp only
    rw [if_pos (by omega)]
    rw [← show t.subtraj_step_no = L from by omega]
  | succ n ih =>
    intro t ch0 rest hst hch0 hk
    have hTL : t.traj_length = L := by rw [traj_length_of_subtraj t ch0 rest hst, hch0]
    have hstep := get_next_sample_no_wrap t L hTL (by omega)
    have hrec := ih { t with subtraj_step_no := t.subtraj_step_no + 1 } ch0 rest hst hch0
      (by show t.subtraj_step_no + 1 + n = L; omega)
    dsimp only at hrec
    show Trajectory.run_samples (n + 1 + 1) t = _
    unfold Trajectory.run_samples
    rw [hstep]
    dsimp only
    rw [hrec]
    dsimp only
    rw [if_neg (by omega)]

/-- C1 amended: from a reset state with cursor 0, calling `get_next_sample()`
exactly `traj_length` times triggers **no** `get_next_sub_trajectory()` call
and no error; the `(traj_length + 1)`-th call triggers exactly one, which sets
the cumulative distance `x_dist` to the last position-channel value
`subtraj[0][-1]` of the pre-wraparound sub-trajectory and then raises
`TypeError`, because `get_next_sub_trajectory` invokes `reset_trajectory()`
without its two required positional arguments. -/
theorem C1_amended (t : Trajectory) (L : ℕ) (hL : 1 ≤ L)
    (hrect : ∀ ch ∈ t.subtraj, ch.length = L)
    (hne : t.subtraj ≠ []) (hc0 : t.subtraj_step_no = 0) (hx : t.x_dist = 0) :
    (Trajectory.run_samples L t).2 = (0, none) ∧
    (Trajectory.run_samples (L + 1) t).2.1 = 1 ∧
    (Trajectory.run_samples (L + 1) t).2.2 = some .typeError ∧
    (Trajectory.run_samples (L + 1) t).1.x_dist = (t.subtraj.headD []).getLastD 0 := by
  obtain ⟨ch0, rest, hst⟩ := List.exists_cons_of_ne_nil hne
  have hch0 : ch0.length = L := hrect ch0 (by rw [hst]; exact List.mem_cons_self ch0 rest)
  have hTL : t.traj_length = L := by rw [traj_length_of_subtraj t ch0 rest hst, hch0]
  have h1 := run_samples_no_wrap L L t hne hTL (by omega)
  have h2 := run_samples_wrap L hL L t ch0 rest hst hch0 (by omega)
  refine ⟨by rw [h1], by rw [h2], by rw [h2], ?_⟩
  rw [h2, hst]
  simp [hx]

/-- C1 witness: the amended behavior on a freshly reset 2-channel, 3-sample
trajectory — the 4th call performs the single wraparound, raising `TypeError`
with `x_dist` equal to the last value of the offset position channel. -/
theorem C1_witness :
    (Trajectory.run_samples 4
        ((({ trajectory := [[1, 2, 3], [4, 5, 6]],
             subtraj := [[1, 2, 3], [4, 5, 6]] } : Trajectory).reset_trajectory
            1 1 (some 0) 0).1)).2.1 = 1 :=
  (C1_amended
    ((({ trajectory := [[1, 2, 3], [4, 5, 6]],
         subtraj := [[1, 2, 3], [4, 5, 6]] } : Trajectory).reset_trajectory
        1 1 (some 0) 0).1) 3 (by decide) (by decide) (by decide) (by decide)
    (by decide)).2.1

/-! ### C1 and C3 counterexamples -/

/-- C1 counterexample: on a freshly reset 2-channel, 3-sample trajectory
(`traj_length = 3`, cursor fixed at 0), calling `get_next_sample()` exactly
`traj_length` (= 3) times triggers zero calls to `get_next_sub_trajectory()`,
not exactly one as claimed — the wraparound only happens on the following
call. -/
theorem C1_counterexample :
    ¬ ((Trajectory.run_samples 3
          ((({ trajectory := [[1, 2, 3], [4, 5, 6]],
               subtraj := [[1, 2, 3], [4, 5, 6]] } : Trajectory).reset_trajectory
              1 1 (some 0) 0).1)).2.1 = 1) := by decide

/-- C3 counterexample: the claim's split-point rescale law is asserted for
every factor `f > 0`, but at `f = 1` (equal timesteps, one 5-sample channel,
split points `[0, 5]`) the constructor raises `NameError` (undefined
`traj_speed_mult`) instead of producing any state with rescaled split
points. -/
theorem C3_counterexample :
    (Trajectory.init (fun _ _ => 0) ⟨[("a", [1, 2, 3, 4, 5])], some [0, 5]⟩
        [["a"]] 0 1 1 []).2 = .error .nameError := rfl

/-! ### C3 — resample length law and split-point rescale -/

/-- C3 amended: for every factor `f = traj_dt / control_dt > 0` actually
reaching the resampling branch (`traj_dt ≠ control_dt`; at `f = 1` the
constructor instead raises `NameError`, see the counterexample), on an archive
whose requested channels are rectangular with `L ≥ 4` samples, construction
succeeds; the stored trajectory has the same channel count and channel order
(channel `j` is the resampling of input channel `j`), every channel has
exactly `round(L * f)` samples, and every original split point `p` is rescaled
to `round(p * f)`. -/
theorem C3_amended (spline : Channel → ℚ → ℚ) (archive : Archive) (heap : Heap)
    (keysAddr : ℕ) (traj_dt control_dt : ℚ) (sp : List ℕ) (rows : Traj) (L : ℕ)
    (hfoot : archive.hasKey "rel_feet_xpos_r" = false)
    (hgoal : archive.hasKey "goal" = false)
    (hfind : (heap.getD keysAddr []).mapM (fun k => archive.find k) = some rows)
    (hrect : rectangular rows = true)
    (hne : rows ≠ [])
    (hL : (rows.headD []).length = L) (hL4 : 4 ≤ L)
    (hsp : archive.split = some sp)
    (hdt : traj_dt ≠ control_dt) (hpos : 0 < traj_dt) (hpos' : 0 < control_dt) :
    ∃ st, (Trajectory.init spline archive heap keysAddr traj_dt control_dt []).2 = .ok st ∧
      st.split_points = sp.map (fun (p : ℕ) =>
        (py_round ((p : ℚ) * ((1 / (1:ℚ)) * (traj_dt / control_dt)))).toNat) ∧
      st.trajectory.length = rows.length ∧
      (∀ ch ∈ st.trajectory,
        ch.length = (py_round ((L : ℚ) * ((1 / (1:ℚ)) * (traj_dt / control_dt)))).toNat) ∧
      st.trajectory = rows.map (fun ch =>
        (np_linspace 0 ((L : ℚ) - 1)
          (py_round ((L : ℚ) * ((1 / (1:ℚ)) * (traj_dt / control_dt)))).toNat).map
          (fun x => spline ch x)) := by
  have hf : 0 < (1 / (1:ℚ)) * (traj_dt / control_dt) := by
    have := div_pos hpos hpos'
    simpa using this
  have hnum : 0 ≤ py_round ((L : ℚ) * ((1 / (1:ℚ)) * (traj_dt / control_dt))) :=
    py_round_nonneg _ (by positivity)
  have hempty : rows.isEmpty = false := by simpa [List.isEmpty_iff] using hne
  have hinterp : interpolate_trajectory spline rows ((1 / (1:ℚ)) * (traj_dt / control_dt))
      = .ok (rows.map (fun ch =>
          (np_linspace 0 ((L : ℚ) - 1)
            (py_round ((L : ℚ) * ((1 / (1:ℚ)) * (traj_dt / control_dt)))).toNat).map
            (fun x => spline ch x))) := by
    unfold interpolate_trajectory
    rw [hempty]
    simp only [Bool.false_eq_true, if_false, hL]
    rw [if_neg (not_lt.2 hnum), if_neg (not_lt.2 hL4)]
  unfold Trajectory.init
  rw [hfoot]
  simp only [Bool.false_eq_true, if_false, hgoal, removeLoop]
  rw [hfind]
  simp only [hrect, Bool.true_eq_false, if_false, hsp]
  simp only [init_resample]
  rw [if_neg hdt, hinterp]
  refine ⟨_, rfl, rfl, ?_, ?_, rfl⟩
  · rw [List.length_map]
  · intro ch hch
    obtain ⟨ch', -, rfl⟩ := List.mem_map.1 hch
    rw [List.length_map, np_linspace_length]

/-- C3 witness: one 4-sample channel, split points `[0, 4]`, `traj_dt = 2`,
`control_dt = 1` (factor 2): construction succeeds and the split points are
rescaled to `[0, 8] = [round(0·2), round(4·2)]`. -/
theorem C3_witness :
    (Trajectory.init (fun _ _ => 0) ⟨[("a", [0, 1, 2, 3])], some [0, 4]⟩
        [["a"]] 0 2 1 []).2.map (fun st => st.split_points) = .ok [0, 8] := by
  obtain ⟨st, hok, hsp', -, -, -⟩ := C3_amended (fun _ _ => 0)
    ⟨[("a", [0, 1, 2, 3])], some [0, 4]⟩ [["a"]] 0 2 1 [0, 4] [[0, 1, 2, 3]] 4
    (by decide) (by decide) (by decide) (by decide) (by decide) (by decide)
    (by decide) (by decide) (by norm_num) (by norm_num) (by norm_num)
  rw [hok]
  simp only [Except.map]
  rw [hsp']
  norm_num [py_round]
  decide

end HumanoidTraj
